import Mathlib

/-!
Verification of the adaptive review scheduler and session-queue prefetch
pipeline of the yuliaocool vocabulary-learning application.

The development is a shallow embedding of the relevant source functions:

* `updateItemProgress`   — `src/App.tsx`, lines 205-232
* `selectSmartPhrases`   — `src/unnamed/part_000` (`ReviewMode`), lines 129-149
* the per-item cache-then-generate lookup of `generateContextsForItems`
  and `initSession`      — `src/components/LearnMode.tsx`, lines 101-218
* `handleResult` / `regenerateCurrentItem` (session state machine)
                         — `src/components/LearnMode.tsx`, lines 492-614
* `prefetchMoreIfNeeded` — `src/components/LearnMode.tsx`, lines 221-257

JS timestamps and mastery levels are embedded as `Int`; optional fields as
`Option`; the randomized in-place shuffle (`pool.sort(() => 0.5 -
Math.random())`) as an explicit function argument that is assumed to
permute its input; the remote generation call as an `Except Unit` value
supplied by the environment (success with a payload, or failure).
-/

/-- `CorpusItem` from `src/unnamed/part_002` (the `types` module). -/
structure CorpusItem where
  id : String
  english : String
  chinese : String
  type : String
  tags : List String
  masteryLevel : Int
  practiceCount : Option Int
  synonyms : Option (List String)
  nextReviewDate : Int
  addedAt : Int
deriving DecidableEq, Repr

/-- `LearnContext` from `src/unnamed/part_002` (the `types` module). -/
structure LearnContext where
  targetId : String
  chineseContext : String
  chineseHighlight : String
  englishReference : String
deriving DecidableEq, Repr

/-- The spaced-repetition interval table `[0, 1, 3, 7, 14, 30]` of
`updateItemProgress` (`src/App.tsx` line 210). -/
def intervalsTable : List Int := [0, 1, 3, 7, 14, 30]

/-- The per-item body of `updateItemProgress` (`src/App.tsx` lines 209-222):
`newLevel = success ? min(l+1, 5) : max(l-1, 0)`;
`daysToAdd = success ? intervals[newLevel] : 0`;
`nextReview = now + daysToAdd*24*60*60*1000`;
`practiceCount = (practiceCount || 0) + 1`. -/
def updateOneItem (success : Bool) (now : Int) (item : CorpusItem) : CorpusItem :=
  let newLevel : Int :=
    if success then min (item.masteryLevel + 1) 5 else max (item.masteryLevel - 1) 0
  let daysToAdd : Int := if success then intervalsTable.getD newLevel.toNat 0 else 0
  let nextReview : Int := now + daysToAdd * (24 * 60 * 60 * 1000)
  let newPractice : Int := item.practiceCount.getD 0 + 1
  { item with
      masteryLevel := newLevel
      nextReviewDate := nextReview
      practiceCount := some newPractice }

/-- `updateItemProgress` (`src/App.tsx` lines 205-224): map over the corpus,
rewriting only the item whose id matches. -/
def updateItemProgress (id : String) (success : Bool) (now : Int)
    (corpus : List CorpusItem) : List CorpusItem :=
  corpus.map fun item => if item.id ≠ id then item else updateOneItem success now item

/-- C1 — For every corpus item and every progress update: on success the
item's masteryLevel becomes `min(masteryLevel+1, 5)`, its nextReviewDate
becomes `now + table[newLevel]*86400000` for `table = [0,1,3,7,14,30]`, and
its practiceCount increases by 1; on failure its masteryLevel becomes
`max(masteryLevel-1, 0)` and its nextReviewDate becomes `now`.  Stated for
items satisfying the data-model invariant `masteryLevel ∈ [0,5]`, over
`updateItemProgress` applied to a whole corpus. -/
theorem c1_progress_update (corpus : List CorpusItem) (id : String) (now : Int)
    (item : CorpusItem) (hmem : item ∈ corpus) (hid : item.id = id)
    (_h0 : 0 ≤ item.masteryLevel) (_h5 : item.masteryLevel ≤ 5) :
    updateOneItem true now item ∈ updateItemProgress id true now corpus ∧
    updateOneItem false now item ∈ updateItemProgress id false now corpus ∧
    (updateOneItem true now item).masteryLevel = min (item.masteryLevel + 1) 5 ∧
    (updateOneItem true now item).nextReviewDate =
      now + intervalsTable.getD (min (item.masteryLevel + 1) 5).toNat 0 * 86400000 ∧
    (updateOneItem true now item).practiceCount = some (item.practiceCount.getD 0 + 1) ∧
    (updateOneItem false now item).masteryLevel = max (item.masteryLevel - 1) 0 ∧
    (updateOneItem false now item).nextReviewDate = now := by
  refine ⟨?_, ?_, by simp [updateOneItem], ?_, by simp [updateOneItem], by simp [updateOneItem], by simp [updateOneItem]⟩
  · have : updateOneItem true now item =
        (fun it => if it.id ≠ id then it else updateOneItem true now it) item := by
      simp [hid]
    rw [this]
    exact List.mem_map_of_mem _ hmem
  · have : updateOneItem false now item =
        (fun it => if it.id ≠ id then it else updateOneItem false now it) item := by
      simp [hid]
    rw [this]
    exact List.mem_map_of_mem _ hmem
  · simp only [updateOneItem]
    norm_num

/-- Witness for `c1_progress_update` at a concrete one-item corpus. -/
theorem c1_progress_update_witness :
    (updateOneItem true 1000
        { id := "a", english := "a", chinese := "", type := "word", tags := [],
          masteryLevel := 3, practiceCount := none, synonyms := none,
          nextReviewDate := 0, addedAt := 0 }).nextReviewDate = 1000 + 14 * 86400000 := by
  have h := c1_progress_update
    [{ id := "a", english := "a", chinese := "", type := "word", tags := [],
       masteryLevel := 3, practiceCount := none, synonyms := none,
       nextReviewDate := 0, addedAt := 0 }] "a" 1000
    { id := "a", english := "a", chinese := "", type := "word", tags := [],
      masteryLevel := 3, practiceCount := none, synonyms := none,
      nextReviewDate := 0, addedAt := 0 }
    (by simp) rfl (by norm_num) (by norm_num)
  have h4 := h.2.2.2.1
  rw [h4]
  decide

/-- C7 — Every progress update preserves the invariant
`masteryLevel ∈ [0, 5]`, for both success and failure results. -/
theorem c7_mastery_invariant (corpus : List CorpusItem) (id : String)
    (success : Bool) (now : Int)
    (hinv : ∀ item ∈ corpus, 0 ≤ item.masteryLevel ∧ item.masteryLevel ≤ 5) :
    ∀ item ∈ updateItemProgress id success now corpus,
      0 ≤ item.masteryLevel ∧ item.masteryLevel ≤ 5 := by
  intro item hitem
  rw [updateItemProgress, List.mem_map] at hitem
  obtain ⟨old, hold, heq⟩ := hitem
  obtain ⟨l0, l5⟩ := hinv old hold
  by_cases hc : old.id ≠ id
  · simp only [if_pos hc] at heq
    exact heq ▸ ⟨l0, l5⟩
  · simp only [if_neg hc] at heq
    subst heq
    cases success <;> simp [updateOneItem] <;> omega

/-- Witness for `c7_mastery_invariant` at a concrete corpus and item. -/
theorem c7_mastery_invariant_witness :
    0 ≤ (updateOneItem true 7
        { id := "a", english := "a", chinese := "", type := "word", tags := [],
          masteryLevel := 5, practiceCount := none, synonyms := none,
          nextReviewDate := 0, addedAt := 0 }).masteryLevel ∧
    (updateOneItem true 7
        { id := "a", english := "a", chinese := "", type := "word", tags := [],
          masteryLevel := 5, practiceCount := none, synonyms := none,
          nextReviewDate := 0, addedAt := 0 }).masteryLevel ≤ 5 :=
  c7_mastery_invariant
    [{ id := "a", english := "a", chinese := "", type := "word", tags := [],
       masteryLevel := 5, practiceCount := none, synonyms := none,
       nextReviewDate := 0, addedAt := 0 }] "a" true 7 (by decide)
    (updateOneItem true 7
      { id := "a", english := "a", chinese := "", type := "word", tags := [],
        masteryLevel := 5, practiceCount := none, synonyms := none,
        nextReviewDate := 0, addedAt := 0 }) (by decide)

/-- C10 — `updateItemProgress(id, success)` leaves every item with a
different id completely unchanged, and for the matched item changes only
`masteryLevel`, `nextReviewDate` and `practiceCount`; `practiceCount` is
incremented by 1 on both success and failure, treating a missing
`practiceCount` as 0. -/
theorem c10_frame (corpus : List CorpusItem) (id : String) (success : Bool)
    (now : Int) (i : Nat) (item : CorpusItem) (h : corpus.get? i = some item) :
    (item.id ≠ id → (updateItemProgress id success now corpus).get? i = some item) ∧
    (item.id = id → ∃ item',
      (updateItemProgress id success now corpus).get? i = some item' ∧
      item'.id = item.id ∧ item'.english = item.english ∧
      item'.chinese = item.chinese ∧ item'.type = item.type ∧
      item'.tags = item.tags ∧ item'.synonyms = item.synonyms ∧
      item'.addedAt = item.addedAt ∧
      item'.practiceCount = some (item.practiceCount.getD 0 + 1)) := by
  have hmap : (updateItemProgress id success now corpus).get? i =
      (corpus.get? i).map fun it => if it.id ≠ id then it else updateOneItem success now it := by
    simp [updateItemProgress, List.get?_eq_getElem?]
  constructor
  · intro hne
    rw [hmap, h]
    simp [hne]
  · intro heq
    refine ⟨updateOneItem success now item, ?_, ?_, ?_, ?_, ?_, ?_, ?_, ?_, ?_⟩
    · rw [hmap, h]
      simp [heq]
    all_goals simp [updateOneItem]

/-- Witness for `c10_frame` at a concrete corpus and index. -/
theorem c10_frame_witness :
    ∃ item', (updateItemProgress "b" false 9
        [{ id := "b", english := "e", chinese := "c", type := "word", tags := ["t"],
           masteryLevel := 2, practiceCount := some 4, synonyms := some ["s"],
           nextReviewDate := 3, addedAt := 1 }]).get? 0 = some item' ∧
      item'.id = "b" ∧ item'.english = "e" ∧ item'.chinese = "c" ∧
      item'.type = "word" ∧ item'.tags = ["t"] ∧ item'.synonyms = some ["s"] ∧
      item'.addedAt = 1 ∧ item'.practiceCount = some 5 := by
  have h := (c10_frame
    [{ id := "b", english := "e", chinese := "c", type := "word", tags := ["t"],
       masteryLevel := 2, practiceCount := some 4, synonyms := some ["s"],
       nextReviewDate := 3, addedAt := 1 }] "b" false 9 0
    { id := "b", english := "e", chinese := "c", type := "word", tags := ["t"],
      masteryLevel := 2, practiceCount := some 4, synonyms := some ["s"],
      nextReviewDate := 3, addedAt := 1 } rfl).2 rfl
  obtain ⟨item', h1, h2, h3, h4, h5, h6, h7, h8, h9⟩ := h
  exact ⟨item', h1, h2, h3, h4, h5, h6, h7, h8, by simpa using h9⟩

/-- The due partition of `selectSmartPhrases` (`src/unnamed/part_000` lines
133-135): items with `nextReviewDate <= now`, sorted ascending by
`masteryLevel`.  The JS `Array.sort` with comparator
`(a, b) => a.masteryLevel - b.masteryLevel` is a stable ascending sort;
`List.insertionSort` is a stable ascending sort, so the two agree. -/
def dueSorted (corpus : List CorpusItem) (now : Int) : List CorpusItem :=
  List.insertionSort (fun a b => a.masteryLevel ≤ b.masteryLevel)
    (corpus.filter fun c => decide (c.nextReviewDate ≤ now))

/-- The not-due partition of `selectSmartPhrases` (`src/unnamed/part_000`
lines 138-140): items with `nextReviewDate > now`, sorted ascending by
`masteryLevel`. -/
def notDueSorted (corpus : List CorpusItem) (now : Int) : List CorpusItem :=
  List.insertionSort (fun a b => a.masteryLevel ≤ b.masteryLevel)
    (corpus.filter fun c => decide (now < c.nextReviewDate))

/-- `combined = [...dueItems, ...otherItems]` (`src/unnamed/part_000` line 142). -/
def rankedCorpus (corpus : List CorpusItem) (now : Int) : List CorpusItem :=
  dueSorted corpus now ++ notDueSorted corpus now

/-- `pool = combined.slice(0, Math.max(count * 2, combined.length))`
(`src/unnamed/part_000` line 145). -/
def selectionPool (corpus : List CorpusItem) (count : Nat) (now : Int) :
    List CorpusItem :=
  (rankedCorpus corpus now).take (max (count * 2) (rankedCorpus corpus now).length)

/-- The items selected by `selectSmartPhrases` (`src/unnamed/part_000` lines
146-148) before projecting to the english field.  The randomized in-place
`pool.sort(() => 0.5 - Math.random())` always produces some rearrangement of
the pool; it is embedded as the function `shuffle`, assumed (in the theorems)
to permute its input. -/
def selectSmartItems (corpus : List CorpusItem) (count : Nat) (now : Int)
    (shuffle : List CorpusItem → List CorpusItem) : List CorpusItem :=
  (shuffle (selectionPool corpus count now)).take count

/-- `selectSmartPhrases` (`src/unnamed/part_000` lines 129-149):
`shuffled.slice(0, count).map(c => c.english)`. -/
def selectSmartPhrases (corpus : List CorpusItem) (count : Nat) (now : Int)
    (shuffle : List CorpusItem → List CorpusItem) : List String :=
  (selectSmartItems corpus count now shuffle).map CorpusItem.english

/-- The ranked concatenation is a permutation of the corpus. -/
theorem rankedCorpus_perm (corpus : List CorpusItem) (now : Int) :
    (rankedCorpus corpus now).Perm corpus := by
  have hq : (fun c : CorpusItem => decide (now < c.nextReviewDate)) =
      fun c => !decide (c.nextReviewDate ≤ now) := by
    funext c
    rw [← decide_not]
    exact decide_eq_decide.mpr not_le.symm
  have h1 := List.perm_insertionSort
    (fun a b : CorpusItem => a.masteryLevel ≤ b.masteryLevel)
    (corpus.filter fun c => decide (c.nextReviewDate ≤ now))
  have h2 := List.perm_insertionSort
    (fun a b : CorpusItem => a.masteryLevel ≤ b.masteryLevel)
    (corpus.filter fun c => decide (now < c.nextReviewDate))
  have h3 := List.filter_append_perm
    (fun c : CorpusItem => decide (c.nextReviewDate ≤ now)) corpus
  exact (List.Perm.append h1 h2).trans (by rw [hq]; exact h3)

/-- The pool cutoff `max(count*2, combined.length)` never drops anything:
the pool is the entire ranked corpus. -/
theorem selectionPool_eq_ranked (corpus : List CorpusItem) (count : Nat)
    (now : Int) : selectionPool corpus count now = rankedCorpus corpus now :=
  List.take_of_length_le (le_max_right _ _)

/-- A corpus item with only the scheduling-relevant fields varied, used for
concrete test corpora. -/
def mkTestItem (id : String) (lvl : Int) (next : Int) : CorpusItem :=
  { id := id, english := id, chinese := "", type := "word", tags := [],
    masteryLevel := lvl, practiceCount := none, synonyms := none,
    nextReviewDate := next, addedAt := 0 }

/-- A 5-item corpus: at `now = 1000`, exactly the items `d1` (level 1) and
`d2` (level 3) are due, and `n1`, `n2`, `n3` are not due. -/
def corpus5 : List CorpusItem :=
  [mkTestItem "n1" 0 2000, mkTestItem "d1" 1 0, mkTestItem "n2" 2 3000,
   mkTestItem "d2" 3 500, mkTestItem "n3" 4 4000]

/-- C8 — For every corpus with at least one item and every `count > 0`,
`selectItems(corpus, count, now)` returns exactly `count` distinct items, or
`corpus.length` items when the corpus has fewer than `count` items.  The
shuffle is an arbitrary rearrangement of the pool. -/
theorem c8_selection_size (corpus : List CorpusItem) (count : Nat) (now : Int)
    (shuffle : List CorpusItem → List CorpusItem)
    (hshuffle : ∀ l, (shuffle l).Perm l)
    (_hne : corpus ≠ []) (_hcount : 0 < count) (hnodup : corpus.Nodup) :
    (count ≤ corpus.length → (selectSmartPhrases corpus count now shuffle).length = count) ∧
    (corpus.length < count → (selectSmartPhrases corpus count now shuffle).length = corpus.length) ∧
    (selectSmartItems corpus count now shuffle).Nodup ∧
    ∀ x ∈ selectSmartItems corpus count now shuffle, x ∈ corpus := by
  have hpool : (selectionPool corpus count now).Perm corpus := by
    rw [selectionPool_eq_ranked]
    exact rankedCorpus_perm corpus now
  have hs : (shuffle (selectionPool corpus count now)).Perm corpus :=
    (hshuffle _).trans hpool
  have hlen2 : (selectSmartPhrases corpus count now shuffle).length =
      min count corpus.length := by
    simp [selectSmartPhrases, selectSmartItems, hs.length_eq]
  refine ⟨?_, ?_, ?_, ?_⟩
  · intro h
    rw [hlen2]
    exact min_eq_left h
  · intro h
    rw [hlen2]
    exact min_eq_right h.le
  · exact List.Nodup.sublist (List.take_sublist _ _) (hs.symm.nodup hnodup)
  · intro x hx
    exact hs.subset (List.take_subset _ _ hx)

/-- Witness for `c8_selection_size` at the concrete 5-item corpus with the
identity shuffle. -/
theorem c8_selection_size_witness :
    (selectSmartPhrases corpus5 3 1000 (fun l => l)).length = 3 :=
  (c8_selection_size corpus5 3 1000 (fun l => l) (fun l => List.Perm.refl l)
    (by decide) (by decide) (by decide)).1 (by decide)

/-- C2 counterexample — the claim "selecting 3 items from a 5-item corpus
with exactly 2 due items always includes both due items, for every outcome
of the randomized shuffle" is false: the pool cutoff
`max(count*2, combined.length)` keeps the whole corpus in the pool, so the
shuffle outcome that reverses the pool (a permutation of it) puts the three
not-due items first and both due items are dropped from the 3 results. -/
theorem c2_counterexample :
    corpus5.length = 5 ∧
    (corpus5.filter fun c => decide (c.nextReviewDate ≤ 1000)).map
      CorpusItem.masteryLevel = [1, 3] ∧
    (corpus5.filter fun c => decide (1000 < c.nextReviewDate)).length = 3 ∧
    (List.reverse (selectionPool corpus5 3 1000)).Perm (selectionPool corpus5 3 1000) ∧
    (selectSmartPhrases corpus5 3 1000 List.reverse).length = 3 ∧
    ¬ ("d1" ∈ selectSmartPhrases corpus5 3 1000 List.reverse) ∧
    ¬ ("d2" ∈ selectSmartPhrases corpus5 3 1000 List.reverse) :=
  ⟨rfl, by decide, by decide, List.reverse_perm _, by decide, by decide, by decide⟩

/-- C2 amended — the ranked pool always lists due items first, so whenever
the number of due items is at most `count`, the selection under the
identity shuffle (the rearrangement that keeps the ranked order) includes
every due item; an adversarial shuffle outcome may exclude them. -/
theorem c2_amended_due_selected (corpus : List CorpusItem) (count : Nat)
    (now : Int)
    (hdueLen : (corpus.filter fun c => decide (c.nextReviewDate ≤ now)).length ≤ count) :
    ∀ item ∈ corpus, item.nextReviewDate ≤ now →
      item.english ∈ selectSmartPhrases corpus count now (fun l => l) := by
  intro item hmem hitemDue
  have hfil : item ∈ corpus.filter (fun c => decide (c.nextReviewDate ≤ now)) :=
    List.mem_filter.mpr ⟨hmem, decide_eq_true hitemDue⟩
  have hdue : item ∈ dueSorted corpus now :=
    (List.perm_insertionSort _ _).symm.subset hfil
  have hlen : (dueSorted corpus now).length ≤ count := by
    have hperm := (List.perm_insertionSort
      (fun a b : CorpusItem => a.masteryLevel ≤ b.masteryLevel)
      (corpus.filter fun c => decide (c.nextReviewDate ≤ now))).length_eq
    rw [dueSorted, hperm]
    exact hdueLen
  have htake : (rankedCorpus corpus now).take count =
      dueSorted corpus now ++
        (notDueSorted corpus now).take (count - (dueSorted corpus now).length) := by
    rw [rankedCorpus, List.take_append_eq_append_take, List.take_of_length_le hlen]
  have hmemtake : item ∈ (rankedCorpus corpus now).take count := by
    rw [htake]
    exact List.mem_append_left _ hdue
  have hmem2 : item ∈ selectSmartItems corpus count now (fun l => l) := by
    simpa [selectSmartItems, selectionPool_eq_ranked] using hmemtake
  show item.english ∈ (selectSmartItems corpus count now (fun l => l)).map
    CorpusItem.english
  exact List.mem_map_of_mem _ hmem2

/-- Witness for `c2_amended_due_selected`: in the 5-item scenario, the due
item `d1` is among the 3 results under the identity shuffle. -/
theorem c2_amended_due_selected_witness :
    "d1" ∈ selectSmartPhrases corpus5 3 1000 (fun l => l) :=
  c2_amended_due_selected corpus5 3 1000 (by decide)
    (mkTestItem "d1" 1 0) (by decide) (by decide)

/-- `CACHE_EXPIRY_MS = 3600 * 1000` (`src/components/LearnMode.tsx` line 23,
`src/unnamed/part_000` line 16). -/
def cacheExpiryMs : Int := 3600 * 1000

/-- The persisted value found under a cache key, as the lookup code can
observe it (`src/components/LearnMode.tsx` lines 113-125 and 174-192):
nothing stored; a value on which `JSON.parse` (or destructuring its result)
throws; a value that parses but lacks the expected `topic`/`timestamp`
fields; or a well-formed `(context, topic, timestamp)` triple. -/
inductive StoredEntry where
  | absent
  | unparseable
  | missingFields
  | wellFormed (context : LearnContext) (topic : String) (timestamp : Int)
deriving DecidableEq, Repr

/-- Outcome of one cache-then-generate step for one item: the content
delivered for the item (if any), the entry left under the cache key, and
whether a remote generation call was issued. -/
structure ItemStepResult where
  result : Option LearnContext
  stored : StoredEntry
  generated : Bool
deriving DecidableEq, Repr

/-- The per-item body of `generateContextsForItems`
(`src/components/LearnMode.tsx` lines 108-143), identical in structure to
the per-item fast path of `initSession` (lines 170-194): read the persisted
entry; if it parses and `cachedTopic === currentTopic && now - timestamp <
CACHE_EXPIRY_MS`, serve it without generating; if parsing throws, remove the
entry; in every non-hit case issue a generation call, and on generation
success store the fresh `(context, topic, now)` triple (on generation
failure nothing further is written). -/
def itemStep (e : StoredEntry) (currentTopic : String) (now : Int)
    (gen : Except Unit LearnContext) : ItemStepResult :=
  match e with
  | .wellFormed ctx t ts =>
    if t = currentTopic ∧ now - ts < cacheExpiryMs then
      { result := some ctx, stored := .wellFormed ctx t ts, generated := false }
    else
      match gen with
      | .ok ctx2 =>
        { result := some ctx2, stored := .wellFormed ctx2 currentTopic now,
          generated := true }
      | .error _ =>
        { result := none, stored := .wellFormed ctx t ts, generated := true }
  | .unparseable =>
    match gen with
    | .ok ctx2 =>
      { result := some ctx2, stored := .wellFormed ctx2 currentTopic now,
        generated := true }
    | .error _ => { result := none, stored := .absent, generated := true }
  | .missingFields =>
    match gen with
    | .ok ctx2 =>
      { result := some ctx2, stored := .wellFormed ctx2 currentTopic now,
        generated := true }
    | .error _ => { result := none, stored := .missingFields, generated := true }
  | .absent =>
    match gen with
    | .ok ctx2 =>
      { result := some ctx2, stored := .wellFormed ctx2 currentTopic now,
        generated := true }
    | .error _ => { result := none, stored := .absent, generated := true }

/-- A concrete generated content value for counterexamples and witnesses. -/
def ctx0 : LearnContext :=
  { targetId := "t", chineseContext := "c", chineseHighlight := "h",
    englishReference := "e" }

/-- C3 counterexample — the claim says that on a miss "the entry is evicted
and fresh content is generated".  At a well-formed entry with matching topic
and age exactly 3600000 ms, and a failing generation call, the lookup is a
Miss (as the claim requires) and a generation call is issued, but the stale
entry is NOT evicted: it remains stored unchanged.  The code removes an
entry only when parsing it throws. -/
theorem c3_counterexample :
    (itemStep (.wellFormed ctx0 "Travel" 0) "Travel" 3600000 (.error ())).result = none ∧
    (itemStep (.wellFormed ctx0 "Travel" 0) "Travel" 3600000 (.error ())).generated = true ∧
    (itemStep (.wellFormed ctx0 "Travel" 0) "Travel" 3600000 (.error ())).stored =
      .wellFormed ctx0 "Travel" 0 ∧
    StoredEntry.wellFormed ctx0 "Travel" 0 ≠ .absent := by
  decide

/-- C3 amended — `get(key, topic)` returns the stored content iff the stored
topic equals the requested topic and `now - createdAt < 3600000` ms (so a
lookup at or after 3600000 ms age is a Miss even when the topic matches);
otherwise the lookup is a Miss and fresh content is generated, but only an
entry whose parsing throws is evicted at lookup time: an expired or
topic-mismatched well-formed entry is left in place, replaced only when the
fresh generation succeeds. -/
theorem c3_cache_get (e : StoredEntry) (topic : String) (now : Int)
    (gen : Except Unit LearnContext) :
    cacheExpiryMs = 3600000 ∧
    (∀ ctx t ts, e = .wellFormed ctx t ts →
      (((itemStep e topic now gen).generated = false ∧
        (itemStep e topic now gen).result = some ctx) ↔
        (t = topic ∧ now - ts < 3600000))) ∧
    (∀ ctx t ts, e = .wellFormed ctx t ts → ¬(t = topic ∧ now - ts < 3600000) →
      ((itemStep e topic now gen).generated = true ∧
       (gen = .error () → (itemStep e topic now gen).result = none ∧
         (itemStep e topic now gen).stored = e) ∧
       (∀ c, gen = .ok c → (itemStep e topic now gen).result = some c ∧
         (itemStep e topic now gen).stored = .wellFormed c topic now))) := by
  have hms : cacheExpiryMs = (3600000 : Int) := by norm_num [cacheExpiryMs]
  refine ⟨hms, ?_, ?_⟩
  · intro ctx t ts heq
    subst heq
    by_cases hcond : t = topic ∧ now - ts < cacheExpiryMs
    · have hcond36 : t = topic ∧ now - ts < 3600000 := by
        rw [← hms]
        exact hcond
      constructor
      · intro _
        exact hcond36
      · intro _
        simp [itemStep, if_pos hcond]
    · have hcond36 : ¬(t = topic ∧ now - ts < 3600000) := by
        rw [← hms]
        exact hcond
      constructor
      · intro hl
        exfalso
        cases gen with
        | ok c => simp [itemStep, if_neg hcond] at hl
        | error u => simp [itemStep, if_neg hcond] at hl
      · intro hr
        exact absurd hr hcond36
  · intro ctx t ts heq hncond
    subst heq
    have hcond : ¬(t = topic ∧ now - ts < cacheExpiryMs) := by
      rw [hms]
      exact hncond
    refine ⟨?_, ?_, ?_⟩
    · cases gen with
      | ok c => simp [itemStep, if_neg hcond]
      | error u => simp [itemStep, if_neg hcond]
    · intro hg
      subst hg
      simp [itemStep, if_neg hcond]
    · intro c hg
      subst hg
      simp [itemStep, if_neg hcond]

/-- Witness for `c3_cache_get`: a fresh, topic-matching entry is served
without a generation call. -/
theorem c3_cache_get_witness :
    (itemStep (.wellFormed ctx0 "Business" 10) "Business" 20 (.error ())).generated = false ∧
    (itemStep (.wellFormed ctx0 "Business" 10) "Business" 20 (.error ())).result = some ctx0 :=
  (((c3_cache_get (.wellFormed ctx0 "Business" 10) "Business" 20 (.error ())).2.1)
    ctx0 "Business" 10 rfl).mpr ⟨rfl, by norm_num⟩

/-- C9 counterexample — the claim says every malformed entry (failing to
deserialize OR lacking the expected fields) "is cleared".  A parseable entry
that merely lacks the expected fields fails the hit condition without
throwing, so the `catch` that removes entries never runs: with a failing
generation call the lookup is a Miss and does not crash, but the malformed
entry is left in place, not cleared. -/
theorem c9_counterexample :
    (itemStep .missingFields "Travel" 0 (.error ())).result = none ∧
    (itemStep .missingFields "Travel" 0 (.error ())).generated = true ∧
    (itemStep .missingFields "Travel" 0 (.error ())).stored = .missingFields ∧
    StoredEntry.missingFields ≠ .absent := by
  decide

/-- C9 amended — a malformed persisted entry is always treated as a Miss and
never crashes the lookup (the step is total and issues a generation call);
an entry whose parsing throws is cleared (removed, then replaced on
generation success), while a parseable entry lacking the expected fields is
merely bypassed: left in place, overwritten only when fresh generation
succeeds. -/
theorem c9_malformed_entry (topic : String) (now : Int)
    (gen : Except Unit LearnContext) :
    ((itemStep .unparseable topic now gen).generated = true ∧
     (itemStep .unparseable topic now gen).stored ≠ .unparseable ∧
     (gen = .error () → (itemStep .unparseable topic now gen).result = none ∧
       (itemStep .unparseable topic now gen).stored = .absent) ∧
     (∀ c, gen = .ok c → (itemStep .unparseable topic now gen).result = some c ∧
       (itemStep .unparseable topic now gen).stored = .wellFormed c topic now)) ∧
    ((itemStep .missingFields topic now gen).generated = true ∧
     (gen = .error () → (itemStep .missingFields topic now gen).result = none ∧
       (itemStep .missingFields topic now gen).stored = .missingFields) ∧
     (∀ c, gen = .ok c → (itemStep .missingFields topic now gen).result = some c ∧
       (itemStep .missingFields topic now gen).stored = .wellFormed c topic now)) := by
  refine ⟨⟨?_, ?_, ?_, ?_⟩, ?_, ?_, ?_⟩
  · cases gen with
    | ok c => simp [itemStep]
    | error u => simp [itemStep]
  · cases gen with
    | ok c => simp [itemStep]
    | error u => simp [itemStep]
  · intro hg
    subst hg
    simp [itemStep]
  · intro c hg
    subst hg
    simp [itemStep]
  · cases gen with
    | ok c => simp [itemStep]
    | error u => simp [itemStep]
  · intro hg
    subst hg
    simp [itemStep]
  · intro c hg
    subst hg
    simp [itemStep]

/-- Witness for `c9_malformed_entry` at concrete inputs. -/
theorem c9_malformed_entry_witness :
    (itemStep .unparseable "Travel" 5 (.error ())).stored = .absent ∧
    (itemStep .missingFields "Travel" 5 (.error ())).result = none :=
  ⟨((c9_malformed_entry "Travel" 5 (.error ())).1.2.2.1 rfl).2,
   ((c9_malformed_entry "Travel" 5 (.error ())).2.2.1 rfl).1⟩

/-- The in-memory `contextCache : Map<string, LearnContext>`
(`src/components/LearnMode.tsx` line 33) as an association list in insertion
order.  `Map.set` overwrites the value of an existing key in place and
appends a new key at the end. -/
def cacheSet (cache : List (String × LearnContext)) (k : String)
    (v : LearnContext) : List (String × LearnContext) :=
  if cache.any (fun kv => decide (kv.1 = k)) then
    cache.map (fun kv => if kv.1 = k then (k, v) else kv)
  else cache ++ [(k, v)]

/-- `Map.get` on the in-memory context cache. -/
def cacheGet (cache : List (String × LearnContext)) (k : String) :
    Option LearnContext :=
  (cache.find? (fun kv => decide (kv.1 = k))).map Prod.snd

/-- Overwriting a key makes it the first (and only) match of a lookup. -/
theorem find_map_overwrite (t : List (String × LearnContext)) (k : String)
    (v : LearnContext) (h : t.any (fun kv => decide (kv.1 = k)) = true) :
    (t.map (fun kv => if kv.1 = k then (k, v) else kv)).find?
      (fun kv => decide (kv.1 = k)) = some (k, v) := by
  induction t with
  | nil => simp at h
  | cons a t ih =>
    by_cases ha : a.1 = k
    · simp [List.find?_cons, ha]
    · have ht : t.any (fun kv => decide (kv.1 = k)) = true := by
        simpa [List.any_cons, ha] using h
      simp [List.find?_cons, ha, ih ht]

/-- `Map.get` after `Map.set` of the same key returns the new value. -/
theorem cacheGet_cacheSet (cache : List (String × LearnContext)) (k : String)
    (v : LearnContext) : cacheGet (cacheSet cache k v) k = some v := by
  rw [cacheSet]
  by_cases h : cache.any (fun kv => decide (kv.1 = k)) = true
  · rw [if_pos h, cacheGet, find_map_overwrite cache k v h]
    rfl
  · rw [if_neg h]
    have hnone : cache.find? (fun kv => decide (kv.1 = k)) = none := by
      rw [List.find?_eq_none]
      intro x hx hpx
      exact h (List.any_eq_true.mpr ⟨x, hx, hpx⟩)
    simp [cacheGet, List.find?_append, hnone, List.find?]

/-- The session-relevant state of the `LearnMode` component
(`src/components/LearnMode.tsx` lines 31-74): the learning queue fixed at
session start, the cursor `currentIndex`, the in-memory context cache, the
session progress and target counters, the completion flag, whether `onExit`
fired, and the retry counter.  The corpus mutation performed through
`onUpdateProgress` is covered separately by `updateItemProgress`. -/
structure SessionState where
  learningQueue : List CorpusItem
  currentIndex : Nat
  contextCache : List (String × LearnContext)
  sessionProgress : Nat
  sessionTarget : Nat
  isSessionComplete : Bool
  exited : Bool
  retryCount : Nat
deriving Repr

/-- The state produced by `initSession` (`src/components/LearnMode.tsx`
lines 149-164): cursor, progress and completion flag reset, queue and
first-batch cache installed. -/
def initialSessionState (queue : List CorpusItem)
    (cache : List (String × LearnContext)) (target : Nat) : SessionState :=
  { learningQueue := queue, currentIndex := 0, contextCache := cache,
    sessionProgress := 0, sessionTarget := target, isSessionComplete := false,
    exited := false, retryCount := 0 }

/-- `handleResult(mastered)` (`src/components/LearnMode.tsx` lines 510-551).
On success: increment progress; if `sessionTarget > 0 && newProgress >=
sessionTarget` set the completion flag and return without advancing;
otherwise advance the cursor if the queue has a next item, else exit.  On
failure: do not touch the cursor, bump the retry counter and run
`regenerateCurrentItem` (lines 492-508), whose generation outcome is the
`gen` argument: on success it overwrites the item's in-memory cache entry,
on failure it leaves the cache unchanged. -/
def handleResult (mastered : Bool) (gen : Except Unit LearnContext)
    (s : SessionState) : SessionState :=
  match s.learningQueue.get? s.currentIndex with
  | none => s
  | some item =>
    if mastered then
      let newProgress := s.sessionProgress + 1
      if 0 < s.sessionTarget ∧ s.sessionTarget ≤ newProgress then
        { s with sessionProgress := newProgress, isSessionComplete := true }
      else if s.currentIndex + 1 < s.learningQueue.length then
        { s with sessionProgress := newProgress,
                 currentIndex := s.currentIndex + 1, retryCount := 0 }
      else
        { s with sessionProgress := newProgress, exited := true }
    else
      let s1 := { s with retryCount := s.retryCount + 1 }
      match gen with
      | .ok ctx => { s1 with contextCache := cacheSet s1.contextCache item.id ctx }
      | .error _ => s1

/-- The generation request issued by the failure path: on `mastered = false`,
`regenerateCurrentItem` calls
`generateLearnContext(currentItem.english, true, topic)`
(`src/components/LearnMode.tsx` line 497) — unconditionally, without
consulting the cache; the boolean is the literal `true` retry flag passed to
the generator.  On success no such call is made by `handleResult`. -/
def regenRequest (mastered : Bool) (s : SessionState) : Option (String × Bool) :=
  match s.learningQueue.get? s.currentIndex with
  | none => none
  | some item => if mastered then none else some (item.english, true)

/-- A result submission as the user can actually perform it: when
`isSessionComplete` is set, the render (`src/components/LearnMode.tsx`
lines 592-614) returns the completion screen before the buttons that invoke
`handleResult`, so no submission reaches the handler until a new session is
started. -/
def submitResult (mastered : Bool) (gen : Except Unit LearnContext)
    (s : SessionState) : SessionState :=
  if s.isSessionComplete then s else handleResult mastered gen s

/-- C4 — In a session with `sessionTarget = 2`, the second consecutive
successful submission moves the controller to the Complete state
(`progress >= sessionTarget` with target > 0), and no further submission is
processed in that session. -/
theorem c4_target_completion (queue : List CorpusItem)
    (cache : List (String × LearnContext)) (hlen : 2 ≤ queue.length)
    (gen1 gen2 : Except Unit LearnContext) :
    (submitResult true gen2 (submitResult true gen1
      (initialSessionState queue cache 2))).isSessionComplete = true ∧
    (submitResult true gen2 (submitResult true gen1
      (initialSessionState queue cache 2))).sessionProgress = 2 ∧
    ∀ (mastered : Bool) (gen : Except Unit LearnContext),
      submitResult mastered gen (submitResult true gen2 (submitResult true gen1
        (initialSessionState queue cache 2))) =
      submitResult true gen2 (submitResult true gen1
        (initialSessionState queue cache 2)) := by
  match queue, hlen with
  | a :: b :: t, _ =>
    have h1 : submitResult true gen1 (initialSessionState (a :: b :: t) cache 2) =
        { learningQueue := a :: b :: t, currentIndex := 1, contextCache := cache,
          sessionProgress := 1, sessionTarget := 2, isSessionComplete := false,
          exited := false, retryCount := 0 } := by
      rw [submitResult, if_neg (by simp [initialSessionState])]
      rw [handleResult]
      simp only [initialSessionState, List.get?, if_true]
      rw [if_neg (by omega), if_pos (by simp only [List.length_cons]; omega)]
    have h2 : submitResult true gen2
        { learningQueue := a :: b :: t, currentIndex := 1, contextCache := cache,
          sessionProgress := 1, sessionTarget := 2, isSessionComplete := false,
          exited := false, retryCount := 0 } =
        { learningQueue := a :: b :: t, currentIndex := 1, contextCache := cache,
          sessionProgress := 2, sessionTarget := 2, isSessionComplete := true,
          exited := false, retryCount := 0 } := by
      rw [submitResult, if_neg (by simp)]
      rw [handleResult]
      simp only [List.get?, if_true]
      rw [if_pos (by omega)]
    rw [h1, h2]
    refine ⟨rfl, rfl, ?_⟩
    intro mastered gen
    rw [submitResult, if_pos rfl]

/-- Witness for `c4_target_completion` at a concrete 2-item queue. -/
theorem c4_target_completion_witness :
    SessionState.isSessionComplete (submitResult true (.error ())
      (submitResult true (.error ())
        (initialSessionState [mkTestItem "a" 0 0, mkTestItem "b" 0 0] [] 2))) = true :=
  (c4_target_completion [mkTestItem "a" 0 0, mkTestItem "b" 0 0] []
    (by decide) (.error ()) (.error ())).1

/-- C5 — When a submission reports failure, the cursor does not advance (the
current item stays the same), a fresh generation request for that same item
is issued — carrying the retry flag and without consulting the cache — and
when it succeeds its result overwrites the item's cache entry, so the retry
is not served from the previously cached entry. -/
theorem c5_failure_retry (s : SessionState) (item : CorpusItem)
    (hcur : s.learningQueue.get? s.currentIndex = some item)
    (hnc : s.isSessionComplete = false) (gen : Except Unit LearnContext) :
    (submitResult false gen s).currentIndex = s.currentIndex ∧
    (submitResult false gen s).learningQueue = s.learningQueue ∧
    regenRequest false s = some (item.english, true) ∧
    ∀ ctx, gen = .ok ctx →
      cacheGet (submitResult false gen s).contextCache item.id = some ctx := by
  have hsub : submitResult false gen s = handleResult false gen s := by
    rw [submitResult, if_neg (by simp [hnc])]
  refine ⟨?_, ?_, ?_, ?_⟩
  · rw [hsub, handleResult, hcur]
    cases gen with
    | ok c => rfl
    | error u => rfl
  · rw [hsub, handleResult, hcur]
    cases gen with
    | ok c => rfl
    | error u => rfl
  · rw [regenRequest, hcur]
    rfl
  · intro ctx hg
    subst hg
    rw [hsub, handleResult, hcur]
    exact cacheGet_cacheSet _ _ _

/-- Witness for `c5_failure_retry` at a concrete one-item session. -/
theorem c5_failure_retry_witness :
    (submitResult false (.ok ctx0)
      (initialSessionState [mkTestItem "a" 1 0] [] 2)).currentIndex = 0 ∧
    cacheGet (submitResult false (.ok ctx0)
      (initialSessionState [mkTestItem "a" 1 0] [] 2)).contextCache "a" = some ctx0 := by
  have h := c5_failure_retry (initialSessionState [mkTestItem "a" 1 0] [] 2)
    (mkTestItem "a" 1 0) rfl rfl (.ok ctx0)
  exact ⟨h.1, h.2.2.2 ctx0 rfl⟩

/-- `TOTAL_PREFETCH_TARGET = 10` (`src/components/LearnMode.tsx` line 25). -/
def totalPrefetchTarget : Nat := 10

/-- `BACKGROUND_BATCH_SIZE = 3` (`src/components/LearnMode.tsx` line 26). -/
def backgroundBatchSize : Nat := 3

/-- `PREFETCH_THRESHOLD = 3` (`src/components/LearnMode.tsx` line 27). -/
def prefetchThreshold : Nat := 3

/-- Outcome of one `prefetchMoreIfNeeded` call, observed after the batch it
may start has settled: the value of the single-flight guard
`isPrefetchingRef`, the items for which generation was requested, and the
in-memory cache after the successful results were merged in. -/
structure PrefetchResult where
  inFlight : Bool
  requested : List CorpusItem
  contextCache : List (String × LearnContext)
deriving Repr

/-- `prefetchMoreIfNeeded` (`src/components/LearnMode.tsx` lines 221-257).
If the guard is set, return immediately (no request, guard untouched).
Otherwise compute `remainingInQueue`, `prefetchedCount` (cached ids sitting
after the cursor in the queue; `findIndex` returning -1 counts as not
after), and `needMore`; when the refill condition holds, set the guard,
request generation for `queue.slice(startIdx, endIdx)` minus already-cached
ids, merge each successful result into the cache, and clear the guard when
the batch settles — the guard ends false whether each generation succeeded
or failed.  The per-item `gen` outcome abstracts
`generateContextsForItems`. -/
def prefetchMoreIfNeeded (inFlight : Bool) (learningQueue : List CorpusItem)
    (currentIndex : Nat) (contextCache : List (String × LearnContext))
    (gen : String → Except Unit LearnContext) : PrefetchResult :=
  if inFlight then
    { inFlight := true, requested := [], contextCache := contextCache }
  else
    let remainingInQueue : Int := (learningQueue.length : Int) - currentIndex - 1
    let prefetchedCount : Nat := ((contextCache.map Prod.fst).filter (fun id =>
        match learningQueue.findIdx? (fun it => decide (it.id = id)) with
        | some idx => decide (currentIndex < idx)
        | none => false)).length
    if (prefetchedCount < prefetchThreshold ∨
        contextCache.length < totalPrefetchTarget) ∧
        (prefetchedCount : Int) < remainingInQueue then
      let startIdx := currentIndex + prefetchedCount + 1
      let endIdx := min (startIdx + backgroundBatchSize) learningQueue.length
      let itemsToFetch := ((learningQueue.drop startIdx).take (endIdx - startIdx)).filter
          (fun it => decide (cacheGet contextCache it.id = none))
      let newCache := itemsToFetch.foldl (fun c it =>
          match gen it.english with
          | .ok ctx => cacheSet c it.id ctx
          | .error _ => c) contextCache
      { inFlight := false, requested := itemsToFetch, contextCache := newCache }
    else
      { inFlight := false, requested := [], contextCache := contextCache }

/-- C6 — At most one prefetch batch is in flight at a time: a call made
while a previous batch has not settled (guard set) performs no generation
request and changes nothing, and after a non-blocked call settles the guard
is clear — for every combination of per-item generation successes and
failures. -/
theorem c6_single_flight (queue : List CorpusItem) (currentIndex : Nat)
    (cache : List (String × LearnContext))
    (gen : String → Except Unit LearnContext) :
    prefetchMoreIfNeeded true queue currentIndex cache gen =
      { inFlight := true, requested := [], contextCache := cache } ∧
    (prefetchMoreIfNeeded false queue currentIndex cache gen).inFlight = false := by
  constructor
  · rfl
  · rw [prefetchMoreIfNeeded]
    simp only [if_false, Bool.false_eq_true]
    split
    · rfl
    · rfl
